import Mathlib

/-!
Verification of the CleoGarda anomaly/risk scoring pipeline.

The repository consists of near-duplicate Python scripts; the core pipeline
(transaction ingestion → anomaly detection → statistical summarization →
weighted risk scoring → categorical classification) is embedded here.

Modelling conventions:
* Python floats are modelled as exact rationals (`ℚ`); a separate `PyFloat`
  type with `nan` / `inf` / `-inf` constructors models the non-finite values
  where a claim is about them.
* `round(x, 2)` is modelled as decimal round-half-even (Python's rounding
  mode), over exact rationals.
* Timestamps are modelled as integers (epoch instants): the pipeline never
  inspects a parsed timestamp, only whether parsing succeeded.
* Python exceptions are modelled with `Option` / `Except`.
-/

/-- Decimal round-half-even of a rational to an integer, the rounding mode
Python's built-in `round` uses (modelled over exact rationals). -/
def roundHalfEven (x : ℚ) : ℤ :=
  if x - ⌊x⌋ < 1/2 then ⌊x⌋
  else if 1/2 < x - ⌊x⌋ then ⌊x⌋ + 1
  else if ⌊x⌋ % 2 = 0 then ⌊x⌋ else ⌊x⌋ + 1

/-- `round(x, 2)` from Python, over exact rationals. -/
def round2 (x : ℚ) : ℚ := (roundHalfEven (100 * x) : ℚ) / 100

/-- Weight configuration for the risk scorer: keys `price`, `liquidity`,
`flags` of the Python weights dict. -/
structure Weights where
  price : ℚ
  liquidity : ℚ
  flags : ℚ
deriving DecidableEq, Repr

/-- Default weights of `calculate_risk_score` in
`cleo_alyssium_cron_scheduler.py` (also the async-worker and veil-guard
variants): `{"price": 0.4, "liquidity": 0.4, "flags": 0.2}`. -/
def defaultWeights : Weights := ⟨2/5, 2/5, 1/5⟩

/-- Default weights of the `cleo_alyssium_token_service.py` variant:
`{"price": 0.5, "liquidity": 0.3, "flags": 0.2}`. -/
def defaultWeightsToken : Weights := ⟨1/2, 3/10, 1/5⟩

/-- `calculate_risk_score` from `cleo_alyssium_cron_scheduler.py`
(lines 197–227).  `weights = none` models calling without the optional
`weights` argument; `some w` models a dict supplying all three keys
(the Python code merges the given dict over the defaults). -/
def calculate_risk_score (price_change liquidity : ℚ) (flags : List String)
    (weights : Option Weights) : ℚ :=
  let w := weights.getD defaultWeights
  let pct := min (max |price_change| 0) 1
  let liq := min (max liquidity 0) 1
  let illiq := 1 - liq
  let total_flags := flags.length
  let flag_score : ℚ :=
    if total_flags = 0 then 0 else (flags.count "suspicious" : ℚ) / total_flags
  let raw := pct * w.price + illiq * w.liquidity + flag_score * w.flags
  let score := max 0 (min raw 1)
  round2 score

/-- `calculate_risk_score` from `cleo_alyssium_async_worker.py`
(lines 100–135): same formula and defaults, but the final score is returned
without rounding. -/
def calculate_risk_score_async (price_change liquidity : ℚ)
    (flags : List String) (weights : Option Weights) : ℚ :=
  let w := weights.getD defaultWeights
  let pct := min |price_change| 1
  let illiq := 1 - max (min liquidity 1) 0
  let total_flags := flags.length
  let penalty : ℚ :=
    if total_flags = 0 then 0 else (flags.count "suspicious" : ℚ) / total_flags
  let raw := pct * w.price + illiq * w.liquidity + penalty * w.flags
  max 0 (min raw 1)

/-- `calculate_risk_score` from `cleo_alyssium_token_service.py`
(lines 102–134): defaults `{"price": 0.5, "liquidity": 0.3, "flags": 0.2}`,
`flags` is an integer count scored as `flags / (flags + 1)`, and the result
is not rounded. -/
def calculate_risk_score_token (price_change liquidity : ℚ) (flags : ℕ)
    (weights : Option Weights) : ℚ :=
  let w := weights.getD defaultWeightsToken
  let pct := min |price_change| 1
  let illiq := 1 - max (min liquidity 1) 0
  let raw := pct * w.price + illiq * w.liquidity
    + ((flags : ℚ) / ((flags : ℚ) + 1)) * w.flags
  max 0 (min raw 1)

/-- `classify_risk` from `cleo_alyssium_cron_scheduler.py` (lines 230–239);
identical to `classify_token` in `cleo_alyssium_session_service.py`
(lines 94–102).  Strict `>` at both boundaries. -/
def classify_risk (score : ℚ) : String :=
  if score > 4/5 then "High Risk"
  else if score > 1/2 then "Moderate Risk"
  else "Low Risk"

/-- `classify_token` from `cleo_alyssium_telemetry.py` (lines 106–114):
the variant that uses `>=` at both boundaries. -/
def classify_token_ge (risk_score : ℚ) : String :=
  if risk_score ≥ 4/5 then "High Risk"
  else if risk_score ≥ 1/2 then "Moderate Risk"
  else "Low Risk"

/-- A parsed transaction (`Transaction` dataclass of the analyzer scripts).
The timestamp is modelled as an epoch instant. -/
structure Transaction where
  tx_hash : String
  value : ℚ
  timestamp : ℤ
deriving DecidableEq, Repr

/-- `WalletAnalyzer.detect_anomalies` from
`cleo_alyssium_cron_scheduler.py` (lines 174–184) and
`cleo_alyssium_session_service.py` (lines 88–91): the list comprehension
`[tx for tx in self.transactions if tx.value > self.threshold]`. -/
def detect_anomalies (threshold : ℚ) (transactions : List Transaction) :
    List Transaction :=
  transactions.filter (fun tx => threshold < tx.value)

/-- Result record of the summarization functions (`{"avg": _, "max": _,
"min": _}`). -/
structure Summary where
  avg : ℚ
  max : ℚ
  min : ℚ
deriving DecidableEq, Repr

/-- `summarize_metrics` from `cleo_alyssium_token_service.py` (lines 17–25):
zero-valued summary on empty input, otherwise exact mean / Python `max` /
Python `min` (Python's `max` over a non-empty iterable is a left fold of the
binary maximum starting from the first element). -/
def summarize_metrics : List ℚ → Summary
  | [] => ⟨0, 0, 0⟩
  | x :: xs =>
    ⟨(x :: xs).sum / (x :: xs).length, xs.foldl max x, xs.foldl min x⟩

/-! ### Python float values, including the non-finite ones

Claims about `NaN` / `Infinity` handling need the non-finite values in the
model.  `PyFloat` models a Python float as either an exact rational or one
of `nan`, `inf`, `-inf`; comparisons and arithmetic follow IEEE-754 rules as
exposed by Python (finite arithmetic is kept exact). -/

/-- A Python float: an exact rational, `float("nan")`, `float("inf")` or
`float("-inf")`. -/
inductive PyFloat where
  | fin (q : ℚ)
  | nan
  | inf
  | ninf
deriving DecidableEq, Repr

/-- The `<` comparison on Python floats: every comparison involving `nan`
is false. -/
def pyLtB : PyFloat → PyFloat → Bool
  | .nan, _ => false
  | _, .nan => false
  | .ninf, .ninf => false
  | .ninf, _ => true
  | _, .ninf => false
  | .inf, _ => false
  | .fin _, .inf => true
  | .fin p, .fin q => decide (p < q)

/-- Whether the float is `nan`; Python's `f == f` test is false exactly
here. -/
def PyFloat.isNan : PyFloat → Bool
  | .nan => true
  | _ => false

/-- Python's two-argument `max`: starts from the first argument and replaces
it only when the second compares strictly greater, so `max(nan, x) = nan`
but `max(x, nan) = x`. -/
def pyMax2 (a b : PyFloat) : PyFloat := if pyLtB a b then b else a

/-- Python's two-argument `min` (replaces only when the second argument
compares strictly smaller). -/
def pyMin2 (a b : PyFloat) : PyFloat := if pyLtB b a then b else a

/-- Python float addition (finite addition kept exact). -/
def pyAdd : PyFloat → PyFloat → PyFloat
  | .nan, _ => .nan
  | _, .nan => .nan
  | .inf, .ninf => .nan
  | .ninf, .inf => .nan
  | .inf, _ => .inf
  | _, .inf => .inf
  | .ninf, _ => .ninf
  | _, .ninf => .ninf
  | .fin a, .fin b => .fin (a + b)

/-- Python float subtraction (finite subtraction kept exact). -/
def pySub : PyFloat → PyFloat → PyFloat
  | .nan, _ => .nan
  | _, .nan => .nan
  | .inf, .inf => .nan
  | .ninf, .ninf => .nan
  | .inf, _ => .inf
  | _, .inf => .ninf
  | .ninf, _ => .ninf
  | _, .ninf => .inf
  | .fin a, .fin b => .fin (a - b)

/-- Python float multiplication; `inf * 0` is `nan`, otherwise signs follow
IEEE rules (finite multiplication kept exact). -/
def pyMul : PyFloat → PyFloat → PyFloat
  | .nan, _ => .nan
  | _, .nan => .nan
  | .inf, .inf => .inf
  | .inf, .ninf => .ninf
  | .ninf, .inf => .ninf
  | .ninf, .ninf => .inf
  | .inf, .fin q => if q = 0 then .nan else if 0 < q then .inf else .ninf
  | .fin q, .inf => if q = 0 then .nan else if 0 < q then .inf else .ninf
  | .ninf, .fin q => if q = 0 then .nan else if 0 < q then .ninf else .inf
  | .fin q, .ninf => if q = 0 then .nan else if 0 < q then .ninf else .inf
  | .fin a, .fin b => .fin (a * b)

/-- Python `abs` on floats. -/
def pyAbs : PyFloat → PyFloat
  | .nan => .nan
  | .inf => .inf
  | .ninf => .inf
  | .fin q => .fin |q|

/-- Division of a Python float by a positive integer count (as in
`sum(nums) / len(nums)`). -/
def pyDivNat (x : PyFloat) (n : ℕ) : PyFloat :=
  match x with
  | .nan => .nan
  | .inf => .inf
  | .ninf => .ninf
  | .fin q => .fin (q / n)

/-- Python `round(x, 2)` on floats: finite values round half-to-even,
non-finite values pass through. -/
def pyRound2 : PyFloat → PyFloat
  | .nan => .nan
  | .inf => .inf
  | .ninf => .ninf
  | .fin q => .fin (round2 q)

/-- `calculate_risk_score` from `cleo_alyssium_cron_scheduler.py` evaluated
over `PyFloat` inputs, so that its behaviour on non-finite `price_change` /
`liquidity` is captured.  The weight values themselves are Python float
literals, hence finite. -/
def calculate_risk_score_py (price_change liquidity : PyFloat)
    (flags : List String) (weights : Option Weights) : PyFloat :=
  let w := weights.getD defaultWeights
  let pct := pyMin2 (pyMax2 (pyAbs price_change) (.fin 0)) (.fin 1)
  let liq := pyMin2 (pyMax2 liquidity (.fin 0)) (.fin 1)
  let illiq := pySub (.fin 1) liq
  let total_flags := flags.length
  let flag_score : PyFloat :=
    if total_flags = 0 then .fin 0
    else .fin ((flags.count "suspicious" : ℚ) / total_flags)
  let raw := pyAdd (pyAdd (pyMul pct (.fin w.price))
    (pyMul illiq (.fin w.liquidity))) (pyMul flag_score (.fin w.flags))
  let score := pyMax2 (.fin 0) (pyMin2 raw (.fin 1))
  pyRound2 score

/-! ### The cron-scheduler summarization, which pre-filters its input -/

/-- A loosely-typed entry handed to `summarize_metrics` in
`cleo_alyssium_cron_scheduler.py`: either something `float(v)` coerces
(`num`, covering numbers and numeric strings, including the strings
`"nan"` / `"inf"`) or something on which `float(v)` raises (`bad`). -/
inductive RawVal where
  | num (f : PyFloat)
  | bad
deriving DecidableEq, Repr

/-- `_finite_nums` from `cleo_alyssium_cron_scheduler.py` (lines 64–73):
keep each entry that coerces to float and passes the `f == f` test (which
only `nan` fails); infinities pass. -/
def _finite_nums (values : List RawVal) : List PyFloat :=
  values.filterMap fun v =>
    match v with
    | .num f => if f.isNan then none else some f
    | .bad => none

/-- Summary record over Python floats. -/
structure PySummary where
  avg : PyFloat
  max : PyFloat
  min : PyFloat
deriving DecidableEq, Repr

/-- Python `sum` over floats (starts from `0`). -/
def pySum (l : List PyFloat) : PyFloat := l.foldl pyAdd (.fin 0)

/-- Python `max` over a non-empty float list: left fold of "replace when
strictly greater" from the head. -/
def pyListMax (x : PyFloat) (xs : List PyFloat) : PyFloat :=
  xs.foldl (fun acc v => if pyLtB acc v then v else acc) x

/-- Python `min` over a non-empty float list. -/
def pyListMin (x : PyFloat) (xs : List PyFloat) : PyFloat :=
  xs.foldl (fun acc v => if pyLtB v acc then v else acc) x

/-- `summarize_metrics` from `cleo_alyssium_cron_scheduler.py`
(lines 76–87): filter through `_finite_nums`, then zero-valued summary if
nothing is left, else avg / max / min over the kept values. -/
def summarize_metrics_cron (values : List RawVal) : PySummary :=
  match _finite_nums values with
  | [] => ⟨.fin 0, .fin 0, .fin 0⟩
  | x :: xs =>
    ⟨pyDivNat (pySum (x :: xs)) (x :: xs).length, pyListMax x xs,
      pyListMin x xs⟩

/-! ### Ingestion -/

/-- The `value` field of a raw record: either float-coercible (with the
resulting rational) or a value on which `float(...)` raises.  Falsy
non-numeric values (handled by the `or 0.0` in the cron variant) are
modelled as `num 0`. -/
inductive RawNum where
  | num (q : ℚ)
  | bad
deriving DecidableEq, Repr

/-- The `timestamp` field of a raw record: either a string/datetime that
parses to an instant, or one on which parsing raises. -/
inductive RawTs where
  | valid (t : ℤ)
  | invalid
deriving DecidableEq, Repr

/-- A raw transaction dict, restricted to the keys the ingestors read.
`none` models an absent key. -/
structure RawRecord where
  hash : Option String
  tx_hash : Option String
  value : Option RawNum
  timestamp : Option RawTs
deriving DecidableEq, Repr

/-- `str(data.get("hash") or data.get("tx_hash") or "")` from the
cron-scheduler `Transaction.from_dict`: Python's `or` skips falsy values,
so an absent key or an empty string falls through. -/
def hashOfRecord (r : RawRecord) : String :=
  match r.hash with
  | some s =>
    if s = "" then (match r.tx_hash with
      | some t => t
      | none => "")
    else s
  | none =>
    match r.tx_hash with
    | some t => t
    | none => ""

/-- `float(data.get("value") or 0.0)`: absent (or falsy) value becomes
`0.0`; a truthy non-coercible value raises. -/
def coerceValue : Option RawNum → Option ℚ
  | none => some 0
  | some (.num q) => some q
  | some .bad => none

/-- `Transaction._parse_timestamp(data.get("timestamp"))`: an absent,
non-string or unparsable timestamp raises. -/
def parseTimestamp : Option RawTs → Option ℤ
  | some (.valid t) => some t
  | some .invalid => none
  | none => none

/-- `Transaction.from_dict` from `cleo_alyssium_cron_scheduler.py`
(lines 54–60); `none` models the constructor raising. -/
def Transaction.from_dict (r : RawRecord) : Option Transaction :=
  match coerceValue r.value, parseTimestamp r.timestamp with
  | some v, some t => some ⟨hashOfRecord r, v, t⟩
  | _, _ => none

/-- `Transaction.from_dict` from `cleo_alyssium_session_service.py`
(lines 27–33): only the `"hash"` key is read, with `""` as the `get`
default. -/
def from_dict_session (r : RawRecord) : Option Transaction :=
  match coerceValue r.value, parseTimestamp r.timestamp with
  | some v, some t => some ⟨r.hash.getD "", v, t⟩
  | _, _ => none

/-- `WalletAnalyzer.load_transactions` from
`cleo_alyssium_cron_scheduler.py` (lines 160–172): each record is parsed
inside `try/except`, so a record whose parse raises is skipped and the rest
of the batch continues. -/
def load_transactions (raw_list : List RawRecord) : List Transaction :=
  raw_list.filterMap Transaction.from_dict

/-- `WalletAnalyzer.load_transactions` from
`cleo_alyssium_session_service.py` (lines 82–86): a bare list
comprehension with no `try/except`, so the first record whose parse raises
aborts the whole call (`none`). -/
def load_transactions_session (tx_list : List RawRecord) :
    Option (List Transaction) :=
  tx_list.mapM from_dict_session

/-! ### Analyzer construction -/

/-- The `WalletAnalyzer` state: address, anomaly threshold, loaded
transactions. -/
structure WalletAnalyzer where
  address : String
  threshold : ℚ
  transactions : List Transaction
deriving DecidableEq, Repr

/-- `WalletAnalyzer.__init__` from `cleo_alyssium_cron_scheduler.py`
(lines 151–158): rejects an empty address, then a negative threshold, each
with a `ValueError`. -/
def mkWalletAnalyzer (address : String) (anomaly_threshold : ℚ) :
    Except String WalletAnalyzer :=
  if address = "" then .error "address must be a non-empty string"
  else if anomaly_threshold < 0 then
    .error "anomaly_threshold must be non-negative"
  else .ok ⟨address, anomaly_threshold, []⟩

/-- `WalletAnalyzer.__init__` from `cleo_alyssium_veil_guard.py`
(lines 70–73): no validation at all; construction always succeeds. -/
def mkWalletAnalyzerVeil (address : String) (anomaly_threshold : ℚ) :
    WalletAnalyzer :=
  ⟨address, anomaly_threshold, []⟩

/-- Spec-side description of the values the cron-scheduler summarization
keeps, written from the claim's words: take the subsequence of entries that
are coercible to float, then drop the entries equal to NaN (infinities are
kept). -/
def coercibleNonNan (values : List RawVal) : List PyFloat :=
  (values.filterMap fun v =>
    match v with
    | .num f => some f
    | .bad => none).filter fun f => !f.isNan

/-- Spec-side description of the cron-scheduler summarization, written from
the claim's words: the avg / max / min of the coercible non-NaN
subsequence, and the zero-valued summary when that subsequence is empty. -/
def summarizeCronSpec (values : List RawVal) : PySummary :=
  match coercibleNonNan values with
  | [] => ⟨.fin 0, .fin 0, .fin 0⟩
  | x :: xs =>
    ⟨pyDivNat (pySum (x :: xs)) (x :: xs).length, pyListMax x xs,
      pyListMin x xs⟩

/-! ## Helper lemmas -/

theorem roundHalfEven_nonneg {x : ℚ} (hx : 0 ≤ x) : 0 ≤ roundHalfEven x := by
  have h0 : (0 : ℤ) ≤ ⌊x⌋ := Int.floor_nonneg.mpr hx
  unfold roundHalfEven
  split_ifs <;> omega

theorem roundHalfEven_le {x : ℚ} {n : ℤ} (h : x ≤ (n : ℚ)) :
    roundHalfEven x ≤ n := by
  have hf : ⌊x⌋ ≤ n := le_of_le_of_eq (Int.floor_mono h) (Int.floor_intCast n)
  unfold roundHalfEven
  split_ifs with h1 h2 h3
  · exact hf
  · have hx2 : (⌊x⌋ : ℚ) + 1/2 ≤ x := by linarith
    have hcast : (⌊x⌋ : ℚ) < (n : ℚ) := by linarith
    have : ⌊x⌋ < n := by exact_mod_cast hcast
    omega
  · exact hf
  · have hx2 : (⌊x⌋ : ℚ) + 1/2 ≤ x := by linarith
    have hcast : (⌊x⌋ : ℚ) < (n : ℚ) := by linarith
    have : ⌊x⌋ < n := by exact_mod_cast hcast
    omega

theorem roundHalfEven_intCast (n : ℤ) : roundHalfEven (n : ℚ) = n := by
  unfold roundHalfEven
  rw [Int.floor_intCast]
  have : (n : ℚ) - n = 0 := by ring
  rw [this]
  norm_num

theorem round2_nonneg {s : ℚ} (h : 0 ≤ s) : 0 ≤ round2 s := by
  unfold round2
  have h1 : (0 : ℚ) ≤ 100 * s := by linarith
  have h2 : (0 : ℤ) ≤ roundHalfEven (100 * s) := roundHalfEven_nonneg h1
  positivity

theorem round2_le_one {s : ℚ} (h : s ≤ 1) : round2 s ≤ 1 := by
  have h1 : 100 * s ≤ ((100 : ℤ) : ℚ) := by push_cast; linarith
  have h2 : roundHalfEven (100 * s) ≤ 100 := roundHalfEven_le h1
  unfold round2
  rw [div_le_one (by norm_num)]
  exact_mod_cast h2

theorem round2_zero : round2 0 = 0 := by
  unfold round2
  rw [mul_zero, show (0 : ℚ) = ((0 : ℤ) : ℚ) by norm_num, roundHalfEven_intCast]
  norm_num

/-- The clamped score `max(0.0, min(raw, 1.0))` lies in `[0, 1]`, whatever
`raw` is. -/
theorem clamp_unit_bounds (raw : ℚ) :
    0 ≤ max 0 (min raw 1) ∧ max 0 (min raw 1) ≤ 1 :=
  ⟨le_max_left 0 _, max_le zero_le_one (min_le_right raw 1)⟩

theorem foldl_max_mem (x : ℚ) (xs : List ℚ) : xs.foldl max x ∈ x :: xs := by
  induction xs generalizing x with
  | nil => simp
  | cons y ys ih =>
    have h := ih (max x y)
    simp only [List.foldl_cons]
    rcases List.mem_cons.mp h with h1 | h1
    · rcases max_choice x y with hc | hc <;> rw [h1, hc] <;> simp
    · exact List.mem_cons_of_mem _ (List.mem_cons_of_mem _ h1)

theorem le_foldl_max (x : ℚ) (xs : List ℚ) :
    ∀ v ∈ x :: xs, v ≤ xs.foldl max x := by
  induction xs generalizing x with
  | nil =>
    intro v hv
    simp only [List.mem_singleton] at hv
    simp [hv]
  | cons y ys ih =>
    intro v hv
    simp only [List.foldl_cons]
    rcases List.mem_cons.mp hv with rfl | hv'
    · exact le_trans (le_max_left v y) (ih (max v y) _ (List.mem_cons_self _ _))
    · rcases List.mem_cons.mp hv' with rfl | h2
      · exact le_trans (le_max_right x v) (ih (max x v) _ (List.mem_cons_self _ _))
      · exact ih (max x y) v (List.mem_cons_of_mem _ h2)

theorem foldl_min_mem (x : ℚ) (xs : List ℚ) : xs.foldl min x ∈ x :: xs := by
  induction xs generalizing x with
  | nil => simp
  | cons y ys ih =>
    have h := ih (min x y)
    simp only [List.foldl_cons]
    rcases List.mem_cons.mp h with h1 | h1
    · rcases min_choice x y with hc | hc <;> rw [h1, hc] <;> simp
    · exact List.mem_cons_of_mem _ (List.mem_cons_of_mem _ h1)

theorem foldl_min_le (x : ℚ) (xs : List ℚ) :
    ∀ v ∈ x :: xs, xs.foldl min x ≤ v := by
  induction xs generalizing x with
  | nil =>
    intro v hv
    simp only [List.mem_singleton] at hv
    simp [hv]
  | cons y ys ih =>
    intro v hv
    simp only [List.foldl_cons]
    rcases List.mem_cons.mp hv with rfl | hv'
    · exact le_trans (ih (min v y) _ (List.mem_cons_self _ _)) (min_le_left v y)
    · rcases List.mem_cons.mp hv' with rfl | h2
      · exact le_trans (ih (min x v) _ (List.mem_cons_self _ _)) (min_le_right x v)
      · exact ih (min x y) v (List.mem_cons_of_mem _ h2)

/-- The outputs of a `filterMap` appear in the same relative order as the
inputs that produced them. -/
theorem map_some_filterMap_sublist {α β : Type} (f : α → Option β)
    (l : List α) : ((l.filterMap f).map some).Sublist (l.map f) := by
  induction l with
  | nil => simp
  | cons a l ih =>
    cases h : f a with
    | none =>
      rw [List.map_cons, List.filterMap_cons_none h, h]
      exact ih.cons none
    | some b =>
      rw [List.map_cons, List.filterMap_cons_some h, h, List.map_cons]
      exact ih.cons₂ (some b)

/-- The one-pass filter of `_finite_nums` agrees with the two-pass
description (coerce, then drop NaN). -/
theorem finite_nums_eq_coercibleNonNan (l : List RawVal) :
    _finite_nums l = coercibleNonNan l := by
  unfold _finite_nums coercibleNonNan
  induction l with
  | nil => rfl
  | cons v l ih =>
    cases v with
    | bad => simpa [List.filterMap_cons] using ih
    | num f =>
      cases hf : f.isNan with
      | true => simpa [List.filterMap_cons, hf] using ih
      | false => simpa [List.filterMap_cons, List.filter_cons, hf] using ih

/-! ## Claims -/

/-- C1: for every finite `price_change` and `liquidity`, every list of flag
strings, and weights equal to the documented defaults (whether supplied as
the default dict or omitted), `calculate_risk_score` — in both the
cron-scheduler and the async-worker variant — returns a value in
`[0.0, 1.0]`, no matter how extreme `price_change` or `liquidity` are. -/
theorem risk_score_in_unit_interval
    (price_change liquidity : ℚ) (flags : List String) (w : Option Weights)
    (hw : w = none ∨ w = some defaultWeights) :
    (0 ≤ calculate_risk_score price_change liquidity flags w ∧
      calculate_risk_score price_change liquidity flags w ≤ 1) ∧
    (0 ≤ calculate_risk_score_async price_change liquidity flags w ∧
      calculate_risk_score_async price_change liquidity flags w ≤ 1) := by
  clear hw
  refine ⟨⟨?_, ?_⟩, ?_, ?_⟩
  · show 0 ≤ round2 _
    exact round2_nonneg (clamp_unit_bounds _).1
  · show round2 _ ≤ 1
    exact round2_le_one (clamp_unit_bounds _).2
  · exact (clamp_unit_bounds _).1
  · exact (clamp_unit_bounds _).2

theorem risk_score_in_unit_interval_witness :
    ((none : Option Weights) = none ∨
      (none : Option Weights) = some defaultWeights) ∧
    ((0 ≤ calculate_risk_score 100 (-7) ["suspicious", "x"] none ∧
      calculate_risk_score 100 (-7) ["suspicious", "x"] none ≤ 1) ∧
    (0 ≤ calculate_risk_score_async 100 (-7) ["suspicious", "x"] none ∧
      calculate_risk_score_async 100 (-7) ["suspicious", "x"] none ≤ 1)) :=
  ⟨Or.inl rfl,
    risk_score_in_unit_interval 100 (-7) ["suspicious", "x"] none (Or.inl rfl)⟩

/-- C2: for every non-negative threshold and every transaction list,
`detect_anomalies` returns exactly the subsequence of transactions with
value strictly greater than the threshold: all returned values exceed the
threshold, any transaction at or below it (including exactly at it) is
excluded, and the relative order of the input is preserved. -/
theorem detect_anomalies_strict_filter
    (threshold : ℚ) (txs : List Transaction) (hT : 0 ≤ threshold) :
    (detect_anomalies threshold txs).Sublist txs ∧
    (∀ tx ∈ detect_anomalies threshold txs, threshold < tx.value) ∧
    (∀ tx ∈ txs, tx.value ≤ threshold →
      tx ∉ detect_anomalies threshold txs) ∧
    (∀ tx : Transaction, (detect_anomalies threshold txs).count tx =
      if threshold < tx.value then txs.count tx else 0) := by
  clear hT
  refine ⟨List.filter_sublist txs, ?_, ?_, ?_⟩
  · intro tx hm
    have h := (List.mem_filter.mp hm).2
    exact of_decide_eq_true h
  · intro tx _ hle hmem
    have h := of_decide_eq_true (List.mem_filter.mp hmem).2
    exact absurd h (not_lt.mpr hle)
  · intro tx
    unfold detect_anomalies
    by_cases h : threshold < tx.value
    · rw [if_pos h, List.count_filter (by simpa using h)]
    · rw [if_neg h, List.count_eq_zero]
      intro hmem
      exact h (of_decide_eq_true (List.mem_filter.mp hmem).2)

theorem detect_anomalies_strict_filter_witness :
    (0 : ℚ) ≤ 10000 ∧
    ((detect_anomalies 10000
        [⟨"a", 5000, 0⟩, ⟨"b", 15000, 0⟩, ⟨"c", 10000, 0⟩]).Sublist
        [⟨"a", 5000, 0⟩, ⟨"b", 15000, 0⟩, ⟨"c", 10000, 0⟩] ∧
    (∀ tx ∈ detect_anomalies 10000
        [⟨"a", 5000, 0⟩, ⟨"b", 15000, 0⟩, ⟨"c", 10000, 0⟩],
        (10000 : ℚ) < tx.value) ∧
    (∀ tx ∈ ([⟨"a", 5000, 0⟩, ⟨"b", 15000, 0⟩, ⟨"c", 10000, 0⟩] :
        List Transaction), tx.value ≤ 10000 →
      tx ∉ detect_anomalies 10000
        [⟨"a", 5000, 0⟩, ⟨"b", 15000, 0⟩, ⟨"c", 10000, 0⟩]) ∧
    (∀ tx : Transaction,
      (detect_anomalies 10000
        [⟨"a", 5000, 0⟩, ⟨"b", 15000, 0⟩, ⟨"c", 10000, 0⟩]).count tx =
      if (10000 : ℚ) < tx.value then
        ([⟨"a", 5000, 0⟩, ⟨"b", 15000, 0⟩, ⟨"c", 10000, 0⟩] :
          List Transaction).count tx
      else 0)) :=
  ⟨by decide, detect_anomalies_strict_filter 10000 _ (by decide)⟩

/-- C3 counterexample: the claim says a score of exactly 0.8 is classified
"Moderate Risk", but the `classify_token` variant in
`cleo_alyssium_telemetry.py` (cited by the claim) uses `>=` and classifies
exactly 0.8 as "High Risk". -/
theorem classify_token_ge_at_boundary_cex :
    classify_token_ge (4/5) = "High Risk" ∧
    classify_token_ge (4/5) ≠ "Moderate Risk" := by
  have h : classify_token_ge (4/5) = "High Risk" := by
    unfold classify_token_ge
    rw [if_pos (le_refl ((4:ℚ)/5))]
  exact ⟨h, by rw [h]; decide⟩

/-- C3 amended: the strict-`>` classifier (`classify_risk` in the
cron-scheduler, `classify_token` in the session service) returns
"High Risk" exactly when `s > 0.8`, "Moderate Risk" exactly when
`0.5 < s <= 0.8`, and "Low Risk" otherwise, with 0.5 classified Low and 0.8
classified Moderate; the telemetry variant `classify_token` instead uses
`>=` at both boundaries, so 0.8 is High and 0.5 is Moderate there. -/
theorem classify_risk_boundaries :
    (∀ s : ℚ,
      (classify_risk s = "High Risk" ↔ 4/5 < s) ∧
      (classify_risk s = "Moderate Risk" ↔ 1/2 < s ∧ s ≤ 4/5) ∧
      (classify_risk s = "Low Risk" ↔ s ≤ 1/2)) ∧
    classify_risk (1/2) = "Low Risk" ∧
    classify_risk (4/5) = "Moderate Risk" ∧
    (∀ s : ℚ,
      (classify_token_ge s = "High Risk" ↔ 4/5 ≤ s) ∧
      (classify_token_ge s = "Moderate Risk" ↔ 1/2 ≤ s ∧ s < 4/5) ∧
      (classify_token_ge s = "Low Risk" ↔ s < 1/2)) := by
  have hstrict : ∀ s : ℚ,
      (classify_risk s = "High Risk" ↔ 4/5 < s) ∧
      (classify_risk s = "Moderate Risk" ↔ 1/2 < s ∧ s ≤ 4/5) ∧
      (classify_risk s = "Low Risk" ↔ s ≤ 1/2) := by
    intro s
    unfold classify_risk
    by_cases h1 : s > 4/5
    · rw [if_pos h1]
      refine ⟨⟨fun _ => h1, fun _ => rfl⟩, ⟨fun h => absurd h (by decide),
        fun h => absurd h.2 (not_le.mpr h1)⟩,
        ⟨fun h => absurd h (by decide), fun h => absurd (h.trans_lt (by norm_num)) (not_lt.mpr (le_of_lt h1))⟩⟩
    · rw [if_neg h1]
      by_cases h2 : s > 1/2
      · rw [if_pos h2]
        refine ⟨⟨fun h => absurd h (by decide), fun h => absurd h1 (by exact fun _ => h1 h)⟩,
          ⟨fun _ => ⟨h2, not_lt.mp h1⟩, fun _ => rfl⟩,
          ⟨fun h => absurd h (by decide), fun h => absurd h2 (not_lt.mpr h)⟩⟩
      · rw [if_neg h2]
        refine ⟨⟨fun h => absurd h (by decide), fun h => absurd h (fun hh => h1 (by linarith))⟩,
          ⟨fun h => absurd h (by decide), fun h => absurd h.1 h2⟩,
          ⟨fun _ => not_lt.mp h2, fun _ => rfl⟩⟩
  refine ⟨hstrict, ?_, ?_, ?_⟩
  · exact ((hstrict (1/2)).2.2).mpr le_rfl
  · exact ((hstrict (4/5)).2.1).mpr ⟨by norm_num, le_rfl⟩
  · intro s
    unfold classify_token_ge
    by_cases h1 : s ≥ 4/5
    · rw [if_pos h1]
      refine ⟨⟨fun _ => h1, fun _ => rfl⟩,
        ⟨fun h => absurd h (by decide), fun h => absurd h1 (not_le.mpr h.2)⟩,
        ⟨fun h => absurd h (by decide), fun h => absurd h1 (not_le.mpr (h.trans (by norm_num)))⟩⟩
    · rw [if_neg h1]
      by_cases h2 : s ≥ 1/2
      · rw [if_pos h2]
        refine ⟨⟨fun h => absurd h (by decide), fun h => absurd h h1⟩,
          ⟨fun _ => ⟨h2, not_le.mp h1⟩, fun _ => rfl⟩,
          ⟨fun h => absurd h (by decide), fun h => absurd h2 (not_le.mpr h)⟩⟩
      · rw [if_neg h2]
        refine ⟨⟨fun h => absurd h (by decide), fun h => absurd h (fun hh => h1 (by linarith))⟩,
          ⟨fun h => absurd h (by decide), fun h => absurd h.1 h2⟩,
          ⟨fun _ => not_le.mp h2, fun _ => rfl⟩⟩

/-- C4 counterexample: the claim's cited `calculate_risk_score` in
`cleo_alyssium_token_service.py` defaults to `price=0.5` (not `0.4`): with
zero flags and liquidity 1 it returns `0.5` at `price_change = 1`, not the
claimed `round2(clamp(|1|, 0, 1) * 0.4) = 0.4`. -/
theorem risk_score_token_default_cex :
    calculate_risk_score_token 1 1 0 none = 1/2 ∧
    round2 (min (max |(1:ℚ)| 0) 1 * (2/5)) = 2/5 ∧
    calculate_risk_score_token 1 1 0 none ≠
      round2 (min (max |(1:ℚ)| 0) 1 * (2/5)) := by
  have h1 : calculate_risk_score_token 1 1 0 none = 1/2 := by
    simp only [calculate_risk_score_token, Option.getD_none, defaultWeightsToken]
    norm_num
  have h2 : round2 (min (max |(1:ℚ)| 0) 1 * (2/5)) = 2/5 := by
    have h : (100:ℚ) * (min (max |(1:ℚ)| 0) 1 * (2/5)) = ((40:ℤ):ℚ) := by
      norm_num
    unfold round2
    rw [h, roundHalfEven_intCast]
    norm_num
  exact ⟨h1, h2, by rw [h1, h2]; norm_num⟩

/-- C4 amended: the majority scorer variants (cron-scheduler, async-worker,
veil-guard) use default weights `price=0.4, liquidity=0.4, flags=0.2` when
no weights are supplied, and for them `score(x, 1.0, [])` equals
`clamp(|x|, 0, 1) * 0.4` (rounded to 2 decimals by the cron variant,
unrounded in the async variant); the token-service variant instead defaults
to `price=0.5, liquidity=0.3, flags=0.2` with an integer flag count, giving
`clamp(|x|, 0, 1) * 0.5` unrounded. -/
theorem risk_score_default_price_term :
    defaultWeights = ⟨2/5, 2/5, 1/5⟩ ∧
    (∀ x : ℚ, calculate_risk_score x 1 [] none =
      round2 (min (max |x| 0) 1 * (2/5))) ∧
    (∀ x : ℚ, calculate_risk_score_async x 1 [] none = min |x| 1 * (2/5)) ∧
    defaultWeightsToken = ⟨1/2, 3/10, 1/5⟩ ∧
    (∀ x : ℚ, calculate_risk_score_token x 1 0 none = min |x| 1 * (1/2)) := by
  refine ⟨rfl, ?_, ?_, rfl, ?_⟩
  · intro x
    simp only [calculate_risk_score, Option.getD_none, defaultWeights]
    norm_num
    rw [min_eq_left (show (|x| ⊓ 1) * (2/5) ≤ 1 by
      have h1 : |x| ⊓ 1 ≤ 1 := min_le_right _ _
      have h0 : (0:ℚ) ≤ |x| ⊓ 1 := le_min (abs_nonneg x) zero_le_one
      nlinarith)]
  · intro x
    simp only [calculate_risk_score_async, Option.getD_none, defaultWeights]
    norm_num
    have h1 : |x| ⊓ 1 ≤ 1 := min_le_right _ _
    have h0 : (0:ℚ) ≤ |x| ⊓ 1 := le_min (abs_nonneg x) zero_le_one
    nlinarith
  · intro x
    simp only [calculate_risk_score_token, Option.getD_none, defaultWeightsToken]
    norm_num
    have h1 : |x| ⊓ 1 ≤ 1 := min_le_right _ _
    have h0 : (0:ℚ) ≤ |x| ⊓ 1 := le_min (abs_nonneg x) zero_le_one
    nlinarith

/-- C5: summarization of an empty value list returns exactly
`{avg: 0.0, max: 0.0, min: 0.0}` (a defined convention, not an error), and
for a non-empty list it returns the exact arithmetic mean and the exact
extrema of the values, with no rounding. -/
theorem summarize_metrics_exact :
    summarize_metrics [] = ⟨0, 0, 0⟩ ∧
    ∀ (l : List ℚ), l ≠ [] →
      (summarize_metrics l).avg = l.sum / l.length ∧
      ((summarize_metrics l).max ∈ l ∧
        ∀ v ∈ l, v ≤ (summarize_metrics l).max) ∧
      ((summarize_metrics l).min ∈ l ∧
        ∀ v ∈ l, (summarize_metrics l).min ≤ v) := by
  refine ⟨rfl, ?_⟩
  intro l hl
  match l with
  | x :: xs =>
    exact ⟨rfl, ⟨foldl_max_mem x xs, le_foldl_max x xs⟩,
      ⟨foldl_min_mem x xs, foldl_min_le x xs⟩⟩

theorem summarize_metrics_exact_witness :
    ([(1:ℚ), 5, 3] ≠ []) ∧
    ((summarize_metrics [(1:ℚ), 5, 3]).avg =
        ([(1:ℚ), 5, 3]).sum / ([(1:ℚ), 5, 3]).length ∧
      ((summarize_metrics [(1:ℚ), 5, 3]).max ∈ [(1:ℚ), 5, 3] ∧
        ∀ v ∈ [(1:ℚ), 5, 3], v ≤ (summarize_metrics [(1:ℚ), 5, 3]).max) ∧
      ((summarize_metrics [(1:ℚ), 5, 3]).min ∈ [(1:ℚ), 5, 3] ∧
        ∀ v ∈ [(1:ℚ), 5, 3], (summarize_metrics [(1:ℚ), 5, 3]).min ≤ v)) :=
  ⟨by decide, summarize_metrics_exact.2 [(1:ℚ), 5, 3] (by decide)⟩

/-- C6 counterexample: the claim's cited
`WalletAnalyzer.load_transactions` in `cleo_alyssium_session_service.py`
has no per-record exception handling, so a batch of two records whose
second has an unparsable timestamp fails as a whole (the first, valid
record is lost too), contradicting "ingestion never fails as a whole
because of individual malformed records". -/
theorem load_transactions_session_cex :
    load_transactions_session
      [⟨some "a", none, some (.num 15000), some (.valid 0)⟩,
       ⟨some "b", none, some (.num 1), some .invalid⟩] = none := rfl

/-- C6 amended: in the cron-scheduler variant, a record whose parse fails
is excluded and processing continues with the remaining records, the count
of accepted transactions is at most the count of raw records, and accepted
transactions keep the input order (stable filter); the session-service
variant instead propagates the first per-record parse failure and aborts
the whole batch. -/
theorem load_transactions_partial_success :
    (∀ (l₁ l₂ : List RawRecord) (r : RawRecord),
      Transaction.from_dict r = none →
      load_transactions (l₁ ++ r :: l₂) = load_transactions (l₁ ++ l₂)) ∧
    (∀ l : List RawRecord,
      (load_transactions l).length ≤ l.length) ∧
    (∀ l : List RawRecord,
      ((load_transactions l).map some).Sublist
        (l.map Transaction.from_dict)) := by
  refine ⟨?_, ?_, ?_⟩
  · intro l₁ l₂ r hr
    unfold load_transactions
    rw [List.filterMap_append, List.filterMap_append,
      List.filterMap_cons_none hr]
  · intro l
    exact List.length_filterMap_le _ l
  · intro l
    exact map_some_filterMap_sublist _ l

theorem load_transactions_partial_success_witness :
    Transaction.from_dict ⟨some "b", none, some (.num 1), some .invalid⟩ =
      none ∧
    load_transactions
      [⟨some "a", none, some (.num 15000), some (.valid 0)⟩,
       ⟨some "b", none, some (.num 1), some .invalid⟩] =
    load_transactions
      [⟨some "a", none, some (.num 15000), some (.valid 0)⟩] :=
  ⟨rfl, by
    have h := load_transactions_partial_success.1
      [⟨some "a", none, some (.num 15000), some (.valid 0)⟩] []
      ⟨some "b", none, some (.num 1), some .invalid⟩ rfl
    simpa using h⟩

/-- C7 counterexample: the claim's cited `WalletAnalyzer.__init__` in
`cleo_alyssium_veil_guard.py` performs no validation, so constructing it
with the negative threshold `-1` succeeds instead of failing. -/
theorem mkWalletAnalyzerVeil_negative_cex :
    mkWalletAnalyzerVeil "wallet" (-1) = ⟨"wallet", -1, []⟩ := rfl

/-- C7 amended: the cron-scheduler `WalletAnalyzer.__init__` (given a
non-empty address) raises a `ValueError` for every negative threshold and
succeeds for every threshold `>= 0`; the veil-guard variant performs no
validation and accepts any threshold, including negative ones. -/
theorem mkWalletAnalyzer_threshold_validation
    (address : String) (t : ℚ) (haddr : address ≠ "") :
    (t < 0 → mkWalletAnalyzer address t =
      .error "anomaly_threshold must be non-negative") ∧
    (0 ≤ t → mkWalletAnalyzer address t = .ok ⟨address, t, []⟩) ∧
    mkWalletAnalyzerVeil address t = ⟨address, t, []⟩ := by
  refine ⟨?_, ?_, rfl⟩
  · intro ht
    unfold mkWalletAnalyzer
    rw [if_neg haddr, if_pos ht]
  · intro ht
    unfold mkWalletAnalyzer
    rw [if_neg haddr, if_neg (not_lt.mpr ht)]

theorem mkWalletAnalyzer_threshold_validation_witness :
    ("wallet" ≠ "") ∧
    (((-1 : ℚ) < 0 → mkWalletAnalyzer "wallet" (-1) =
      .error "anomaly_threshold must be non-negative") ∧
    ((0 : ℚ) ≤ -1 → mkWalletAnalyzer "wallet" (-1) =
      .ok ⟨"wallet", -1, []⟩) ∧
    mkWalletAnalyzerVeil "wallet" (-1) = ⟨"wallet", -1, []⟩) :=
  ⟨by decide, mkWalletAnalyzer_threshold_validation "wallet" (-1) (by decide)⟩

/-- C8 counterexample: `calculate_risk_score` (cron-scheduler variant,
evaluated over Python-float semantics) performs no finiteness check: called
with `price_change = nan` it raises nothing and returns the score `0.0`,
because every comparison with `nan` is false, so `max(0.0, min(nan, 1.0))`
evaluates to `0.0` — the NaN propagates through the clamp logic instead of
triggering an `InvalidInput` error. -/
theorem risk_score_nan_no_error_cex :
    calculate_risk_score_py .nan (.fin 1) [] none = .fin 0 := by
  simp [calculate_risk_score_py, pyAbs, pyMax2, pyMin2, pyLtB, pyMul, pyAdd,
    pyRound2, round2_zero]

/-- C8 amended: the risk scorer has no finiteness validation and never
raises on non-finite input; instead, a `nan` price change flows through the
clamp logic and yields the score `0.0` for every liquidity, flag list and
weights, and an infinite price change behaves exactly like a price change
of `1.0` (it is clamped by `min(..., 1.0)`). -/
theorem risk_score_nonfinite_propagates :
    (∀ (liq : PyFloat) (fl : List String) (w : Option Weights),
      calculate_risk_score_py .nan liq fl w = .fin 0) ∧
    (∀ (liq : PyFloat) (fl : List String) (w : Option Weights),
      calculate_risk_score_py .inf liq fl w =
        calculate_risk_score_py (.fin 1) liq fl w) ∧
    (∀ (liq : PyFloat) (fl : List String) (w : Option Weights),
      calculate_risk_score_py .ninf liq fl w =
        calculate_risk_score_py (.fin 1) liq fl w) := by
  refine ⟨?_, ?_, ?_⟩
  · intro liq fl w
    simp [calculate_risk_score_py, pyAbs, pyMax2, pyMin2, pyLtB, pyMul,
      pyAdd, pyRound2, round2_zero]
  · intro liq fl w
    have hpct : pyMin2 (pyMax2 (pyAbs .inf) (.fin 0)) (.fin 1) =
        pyMin2 (pyMax2 (pyAbs (.fin 1)) (.fin 0)) (.fin 1) := by
      norm_num [pyAbs, pyMax2, pyMin2, pyLtB]
    simp only [calculate_risk_score_py]
    rw [hpct]
  · intro liq fl w
    have hpct : pyMin2 (pyMax2 (pyAbs .ninf) (.fin 0)) (.fin 1) =
        pyMin2 (pyMax2 (pyAbs (.fin 1)) (.fin 0)) (.fin 1) := by
      norm_num [pyAbs, pyMax2, pyMin2, pyLtB]
    simp only [calculate_risk_score_py]
    rw [hpct]

/-- C10: the cron-scheduler `summarize_metrics` drops entries that are not
float-coercible and entries equal to NaN before computing statistics; the
result equals the avg/max/min of the coercible non-NaN subsequence
(zero-valued summary when that subsequence is empty), and infinite values
are not dropped — they pass the `f == f` filter and participate in the
statistics. -/
theorem summarize_metrics_cron_filtered :
    (∀ l : List RawVal, summarize_metrics_cron l = summarizeCronSpec l) ∧
    (∀ (l : List RawVal) (f : PyFloat), RawVal.num f ∈ l →
      f.isNan = false → f ∈ _finite_nums l) ∧
    summarize_metrics_cron [.num .inf, .num (.fin 1)] =
      ⟨.inf, .inf, .fin 1⟩ ∧
    summarize_metrics_cron [.num .nan, .bad] = ⟨.fin 0, .fin 0, .fin 0⟩ := by
  refine ⟨?_, ?_, by decide, by decide⟩
  · intro l
    unfold summarize_metrics_cron summarizeCronSpec
    rw [finite_nums_eq_coercibleNonNan]
  · intro l f hmem hnan
    unfold _finite_nums
    exact List.mem_filterMap.mpr ⟨.num f, hmem, by simp [hnan]⟩

theorem summarize_metrics_cron_filtered_witness :
    (RawVal.num PyFloat.inf ∈ [RawVal.num PyFloat.inf, RawVal.bad]) ∧
    PyFloat.inf.isNan = false ∧
    PyFloat.inf ∈ _finite_nums [RawVal.num PyFloat.inf, RawVal.bad] :=
  ⟨by decide, by decide,
    summarize_metrics_cron_filtered.2.1 [RawVal.num PyFloat.inf, RawVal.bad]
      PyFloat.inf (by decide) (by decide)⟩
